import Mathlib

/-!
# In-Time relationship-cadence tracker — verification of the core engine

Shallow embedding of the derivation and state-update engine of the
In-Time application (`src/src/App.tsx`, with the two sibling versions
`src/unnamed/part_000` and `src/unnamed/part_001` where they differ).

JavaScript `number` values are modelled as exact rationals (`ℚ`);
`Math.floor` / `Math.ceil` / `Math.round` become `Int.floor` / `Int.ceil`
and floor of `x + 1/2`.  Nullable timestamps are `Option ℚ`, and the
JavaScript truthiness test `!lastMeeting` (which treats both `null` and
the number `0` as absent) is translated as the explicit test
`none`-or-`some 0`.  The wall clock (`Date.now()`) is injected as an
explicit `now` argument.
-/

namespace InTime

/-- Relationship tier of a friend (`'close' | 'casual'` in the source). -/
inductive Tier
  | close
  | casual
deriving DecidableEq

/-- The `Friend` record of `App.tsx` (lines 6–18). -/
structure Friend where
  id : String
  name : String
  relationshipTier : Tier
  cadenceDays : ℚ
  lastMeetingDate : Option ℚ
  streakCount : ℚ
  multiplier : ℚ
  totalMeetings : ℚ
  isArchived : Bool
  createdAt : ℚ
  updatedAt : ℚ
deriving DecidableEq

/-- The `Meeting` record of `App.tsx` (lines 20–26). -/
structure Meeting where
  id : String
  friendId : String
  timestamp : ℚ
  note : Option String
  createdAt : ℚ
deriving DecidableEq

/-- Theme preference (`'auto' | 'light' | 'dark'`). -/
inductive ThemePref
  | auto
  | light
  | dark
deriving DecidableEq

/-- The `AppSettings` record of `App.tsx` (lines 28–34). -/
structure AppSettings where
  theme : ThemePref
  notificationsEnabled : Bool
  dailySummaryInterval : ℚ
  thresholdAlertsEnabled : Bool
  hasCompletedOnboarding : Bool
deriving DecidableEq

/-- The `AppState` snapshot of `App.tsx` (lines 36–40): the full
persisted state `{friends, meetings, settings}`. -/
structure AppState where
  friends : List Friend
  meetings : List Meeting
  settings : AppSettings
deriving DecidableEq

/-- The `DataExport` bundle of `App.tsx` (lines 49–55), the shape of an
exported / imported backup. -/
structure DataExport where
  version : String
  exportedAt : ℚ
  friends : List Friend
  meetings : List Meeting
  settings : AppSettings
deriving DecidableEq

/-- JavaScript truthiness of a nullable number: `null` and `0` are
falsy, every other number is truthy. -/
def jsTruthy : Option ℚ → Bool
  | none => false
  | some q => q != 0

/-- Model of `String.prototype.trim`: strip whitespace from both ends. -/
def jsTrim (s : String) : String :=
  ⟨((s.data.dropWhile Char.isWhitespace).reverse.dropWhile Char.isWhitespace).reverse⟩

/-- Model of `Math.round` in JavaScript: half-up rounding, `floor (x + 1/2)`. -/
def jsRound (q : ℚ) : ℤ :=
  Int.floor (q + 1 / 2)

/-- The three bands returned by `getTimerColor`; the source returns the
pairwise-distinct hex strings `COLORS.fresh`, `COLORS.approaching`,
`COLORS.attention` which we model as an enumeration. -/
inductive TimerColor
  | fresh
  | approaching
  | attention
deriving DecidableEq

/-- Function `getTimerColor` of `App.tsx` lines 145–153 (identical in `part_000`
and `part_001`): three-band status from percentage of cadence elapsed. -/
def getTimerColor (lastMeeting : Option ℚ) (cadence : ℚ) (now : ℚ) : TimerColor :=
  match lastMeeting with
  | none => .fresh
  | some t =>
    if t = 0 then .fresh
    else
      let elapsed := now - t
      let days := elapsed / 86400000
      let percentage := days / cadence * 100
      if percentage < 60 then .fresh
      else if percentage < 90 then .approaching
      else .attention

/-- Function `getDaysUntilDue` of `App.tsx` lines 155–160 (identical in
`part_001` lines 153–158): `ceil(cadence − elapsedDays)`, negative
meaning overdue; absent (or epoch-zero, by JS truthiness) `lastMeeting`
yields `cadence`. -/
def getDaysUntilDue (lastMeeting : Option ℚ) (cadence : ℚ) (now : ℚ) : ℚ :=
  match lastMeeting with
  | none => cadence
  | some t =>
    if t = 0 then cadence
    else
      let elapsed := now - t
      let daysElapsed := elapsed / 86400000
      ((Int.ceil (cadence - daysElapsed) : ℤ) : ℚ)

/-- Function `getDaysUntilDue` as it appears in the `part_000` version of the
application (lines 118–123): the same computation additionally clamped
at zero with `Math.max(0, …)`. -/
def getDaysUntilDuePart0 (lastMeeting : Option ℚ) (cadence : ℚ) (now : ℚ) : ℚ :=
  match lastMeeting with
  | none => cadence
  | some t =>
    if t = 0 then cadence
    else
      let elapsed := now - t
      let daysElapsed := elapsed / 86400000
      max 0 ((Int.ceil (cadence - daysElapsed) : ℤ) : ℚ)

/-- Stable insertion of a meeting into a timestamp-sorted list, placing
the new element after existing equal-timestamp ones, as the stable
JavaScript `Array.prototype.sort` with comparator
`(a, b) => a.timestamp - b.timestamp` does. -/
def insertMeeting (m : Meeting) : List Meeting → List Meeting
  | [] => [m]
  | x :: xs => if x.timestamp ≤ m.timestamp then x :: insertMeeting m xs else m :: x :: xs

/-- Ascending stable sort by timestamp
(`.sort((a, b) => a.timestamp - b.timestamp)`). -/
def sortByTimestamp (l : List Meeting) : List Meeting :=
  l.foldl (fun acc m => insertMeeting m acc) []

/-- Model of `Array.prototype.slice(-10)`: the last at-most-10 elements. -/
def sliceLastTen (l : List Meeting) : List Meeting :=
  l.drop (l.length - 10)

/-- Sum of a list of rationals (`.reduce((a, b) => a + b, 0)`). -/
def listSum (l : List ℚ) : ℚ :=
  l.foldl (fun a b => a + b) 0

/-- Function `calculateHealthScore` of `App.tsx` lines 162–179 (textually
identical in `part_000` lines 125–142 and in `part_001`). -/
def calculateHealthScore (friend : Friend) (meetings : List Meeting) : ℤ :=
  if friend.totalMeetings < 2 then 50
  else
    let friendMeetings :=
      sliceLastTen (sortByTimestamp (meetings.filter (fun m => m.friendId = friend.id)))
    if friendMeetings.length < 2 then 50
    else
      let gaps : List ℚ :=
        List.zipWith
          (fun prev m => ((Int.floor ((m.timestamp - prev.timestamp) / 86400000) : ℤ) : ℚ))
          friendMeetings friendMeetings.tail
      let avgGap := listSum gaps / (gaps.length : ℚ)
      let variance := listSum (gaps.map fun gap => (gap - avgGap) ^ 2) / (gaps.length : ℚ)
      let consistency := max 0 (100 - variance / max avgGap 1 * 50)
      let streakStability := min (friend.streakCount * 3) 30
      let gapScore := max 0 (100 - |avgGap - friend.cadenceDays| / friend.cadenceDays * 100)
      let multiplierBonus := (friend.multiplier - 1) * 10
      jsRound (consistency * (0.4 : ℚ) + streakStability * (0.3 : ℚ)
        + gapScore * (0.2 : ℚ) + multiplierBonus)

/-- The reference health-score algorithm as worded in §4.2 of the spec,
step by step: neutral 50 below two recorded meetings, the friend's
meetings sorted ascending and trimmed to the most recent ten, neutral 50
if fewer than two remain, integer day-gaps, then
`round(consistency×0.4 + streakStability×0.3 + gapScore×0.2 +
multiplierBonus)` with the sub-terms of steps 5–9 and no upper clamp. -/
def healthScoreSpec (friend : Friend) (meetings : List Meeting) : ℤ :=
  if friend.totalMeetings < 2 then 50
  else
    let window :=
      sliceLastTen (sortByTimestamp (meetings.filter (fun m => m.friendId = friend.id)))
    if window.length < 2 then 50
    else
      let gaps : List ℚ :=
        List.zipWith
          (fun prev m => ((Int.floor ((m.timestamp - prev.timestamp) / 86400000) : ℤ) : ℚ))
          window window.tail
      let avgGap := listSum gaps / (gaps.length : ℚ)
      let variance := listSum (gaps.map fun gap => (gap - avgGap) ^ 2) / (gaps.length : ℚ)
      let consistency := max 0 (100 - variance / max avgGap 1 * 50)
      let streakStability := min (friend.streakCount * 3) 30
      let gapScore := max 0 (100 - |avgGap - friend.cadenceDays| / friend.cadenceDays * 100)
      let multiplierBonus := (friend.multiplier - 1) * 10
      jsRound (consistency * (0.4 : ℚ) + streakStability * (0.3 : ℚ)
        + gapScore * (0.2 : ℚ) + multiplierBonus)

/-- Value `daysSinceLastMeeting` as computed in `handleQuickLogWithoutNote`
(`App.tsx` line 1137) and `handleLogMeeting` (line 1167):
`friend.lastMeetingDate ? Math.floor((now − lastMeetingDate)/86400000) : 0`. -/
def daysSinceLastMeeting (lastMeetingDate : Option ℚ) (now : ℚ) : ℚ :=
  match lastMeetingDate with
  | none => 0
  | some t =>
    if t = 0 then 0
    else ((Int.floor ((now - t) / 86400000) : ℤ) : ℚ)

/-- Value `newStreak` as computed in `handleQuickLogWithoutNote` (`App.tsx`
line 1138) and `handleLogMeeting` (line 1168):
`daysSinceLastMeeting <= friend.cadenceDays && friend.lastMeetingDate
? friend.streakCount + 1 : 1`. -/
def newStreakOnLog (lastMeetingDate : Option ℚ) (streakCount cadenceDays now : ℚ) : ℚ :=
  if daysSinceLastMeeting lastMeetingDate now ≤ cadenceDays ∧ jsTruthy lastMeetingDate then
    streakCount + 1
  else 1

/-- Value `newMultiplier` as computed at `App.tsx` lines 1139 and 1169:
`Math.min(3.0, 1.0 + (newStreak * 0.1))`. -/
def newMultiplierOnLog (newStreak : ℚ) : ℚ :=
  min 3 (1 + newStreak * (0.1 : ℚ))

/-- Handler `handleLogMeeting` of `App.tsx` lines 1161–1177: append the new
meeting and update the logged friend's streak, multiplier, counters and
timestamps; the fresh meeting id and the clock are injected.
`handleQuickLogWithoutNote` (lines 1130–1152) performs the identical
state update with no note (see `handleQuickLogWithoutNote`). -/
def handleLogMeeting (s : AppState) (fid : String) (note : Option String)
    (now : ℚ) (newMeetingId : String) : AppState :=
  match s.friends.find? (fun f => f.id = fid) with
  | none => s
  | some friend =>
    let newMeeting : Meeting :=
      { id := newMeetingId, friendId := fid, timestamp := now, note := note, createdAt := now }
    let newStreak := newStreakOnLog friend.lastMeetingDate friend.streakCount friend.cadenceDays now
    let newMultiplier := newMultiplierOnLog newStreak
    { s with
      meetings := s.meetings ++ [newMeeting],
      friends := s.friends.map fun f =>
        if f.id = fid then
          { f with lastMeetingDate := some now, streakCount := newStreak,
                   multiplier := newMultiplier, totalMeetings := f.totalMeetings + 1,
                   updatedAt := now }
        else f }

/-- Handler `handleQuickLogWithoutNote` of `App.tsx` lines 1130–1152: the same
snapshot transition as `handleLogMeeting` with no note attached. -/
def handleQuickLogWithoutNote (s : AppState) (fid : String) (now : ℚ)
    (newMeetingId : String) : AppState :=
  handleLogMeeting s fid none now newMeetingId

/-- Number of non-archived friends
(`appState.friends.filter(f => !f.isArchived).length`, `App.tsx`
line 1204), the count handed to `AddEditFriendModal` as `friendCount`. -/
def activeFriendCount (s : AppState) : ℕ :=
  (s.friends.filter fun f => !f.isArchived).length

/-- The two rejection reasons of `AddEditFriendModal.handleSave`:
`'Name is required'` and `'Friend limit reached (10 max)'`. -/
inductive SaveError
  | nameRequired
  | limitReached
deriving DecidableEq

/-- The payload `handleSave` passes to `onSave`:
`{ name: name.trim(), relationshipTier: tier, cadenceDays: cadence }`. -/
structure SaveData where
  name : String
  relationshipTier : Tier
  cadenceDays : ℚ
deriving DecidableEq

/-- Handler `AddEditFriendModal.handleSave` of `App.tsx` lines 835–839.
`isEdit` is whether the modal was opened on an existing friend (the
`friend` prop); the capacity check `friendCount >= 10` runs only in
add mode. -/
def handleSave (isEdit : Bool) (name : String) (tier : Tier) (cadence : ℚ)
    (friendCount : ℕ) : Except SaveError SaveData :=
  if jsTrim name = "" then .error .nameRequired
  else if isEdit = false ∧ 10 ≤ friendCount then .error .limitReached
  else .ok { name := jsTrim name, relationshipTier := tier, cadenceDays := cadence }

/-- Handler `handleAddFriend` of `App.tsx` lines 1108–1116: append a fresh
friend with zero streak, multiplier 1.0 and no meetings; id and clock
injected. -/
def handleAddFriend (s : AppState) (d : SaveData) (newId : String) (now : ℚ) : AppState :=
  { s with friends := s.friends ++
      [{ id := newId, name := d.name, relationshipTier := d.relationshipTier,
         cadenceDays := d.cadenceDays, lastMeetingDate := none, streakCount := 0,
         multiplier := 1, totalMeetings := 0, isArchived := false,
         createdAt := now, updatedAt := now }] }

/-- Handler `handleEditFriend` of `App.tsx` lines 1118–1123 applied to the data
`AddEditFriendModal.handleSave` passes (name, tier, cadence):
`{ ...f, ...data, updatedAt: Date.now() }` on the selected friend. -/
def handleEditFriend (s : AppState) (fid : String) (d : SaveData) (now : ℚ) : AppState :=
  { s with friends := s.friends.map fun f =>
      if f.id = fid then
        { f with name := d.name, relationshipTier := d.relationshipTier,
                 cadenceDays := d.cadenceDays, updatedAt := now }
      else f }

/-- The add-friend interaction: `AddEditFriendModal.handleSave`
followed, on success, by `handleAddFriend`; on rejection the snapshot is
not touched and the specific error is surfaced. -/
def addFriendFlow (s : AppState) (name : String) (tier : Tier) (cadence : ℚ)
    (newId : String) (now : ℚ) : AppState × Option SaveError :=
  match handleSave false name tier cadence (activeFriendCount s) with
  | .error e => (s, some e)
  | .ok d => (handleAddFriend s d newId now, none)

/-- The data a delete's undo toast closes over (`App.tsx` lines
1181–1183): the removed friend and its removed meetings, verbatim. -/
structure UndoBuffer where
  friend : Friend
  deletedMeetings : List Meeting
deriving DecidableEq

/-- Handler `handleDeleteFriend` of `App.tsx` lines 1179–1200 (identical in
`part_001` lines 1360–1381): remove the friend and its meetings from
the snapshot, returning also the captured undo data shown on the toast
(`none` when the id is not found and the handler returns early). -/
def handleDeleteFriend (s : AppState) (fid : String) : AppState × Option UndoBuffer :=
  match s.friends.find? (fun f => f.id = fid) with
  | none => (s, none)
  | some friend =>
    let deletedMeetings := s.meetings.filter fun m => m.friendId = fid
    ({ s with
        friends := s.friends.filter fun f => ¬(f.id = fid),
        meetings := s.meetings.filter fun m => ¬(m.friendId = fid) },
     some { friend := friend, deletedMeetings := deletedMeetings })

/-- The undo toast's `onAction` closure (`App.tsx` lines 1192–1198):
append the held friend and the held meetings back onto the current
snapshot. -/
def applyUndo (s : AppState) (buf : UndoBuffer) : AppState :=
  { s with
    friends := s.friends ++ [buf.friend],
    meetings := s.meetings ++ buf.deletedMeetings }

/-- A delete together with its toast bookkeeping: `showToast` appends
the new toast — carrying the undo closure — onto the existing toast list
(`setToasts(prev => [...prev, {…, action}])`, `App.tsx` line 1051). -/
def deleteFriendWithToast (s : AppState) (toasts : List UndoBuffer) (fid : String) :
    AppState × List UndoBuffer :=
  match handleDeleteFriend s fid with
  | (s', some buf) => (s', toasts ++ [buf])
  | (s', none) => (s', toasts)

/-- Handler `confirmImport` of `App.tsx` lines 1091–1096: wholesale replacement
of the snapshot by the accepted candidate, with
`hasCompletedOnboarding` forced `true`. -/
def confirmImport (d : DataExport) : AppState :=
  { friends := d.friends, meetings := d.meetings,
    settings := { d.settings with hasCompletedOnboarding := true } }

/-- A parsed JSON value, the shape `JSON.parse` hands to
`handleImportFile` before any validation. -/
inductive JsonVal
  | jnull
  | jbool (b : Bool)
  | jnum (q : ℚ)
  | jstr (s : String)
  | jarr (elems : List JsonVal)
  | jobj (fields : List (String × JsonVal))

namespace JsonVal

/-- JavaScript property access `v?.key`: a field of an object, else
`undefined` (here `none`). -/
def getField : JsonVal → String → Option JsonVal
  | jobj fields, key => fields.lookup key
  | _, _ => none

/-- Check `Array.isArray(x)` on a possibly-`undefined` value. -/
def isArr : Option JsonVal → Bool
  | some (jarr _) => true
  | _ => false

/-- Check `typeof x === 'string'` on a possibly-`undefined` value. -/
def isStr : Option JsonVal → Bool
  | some (jstr _) => true
  | _ => false

/-- JavaScript truthiness of a possibly-`undefined` value. -/
def truthy : Option JsonVal → Bool
  | none => false
  | some jnull => false
  | some (jbool b) => b
  | some (jnum q) => q != 0
  | some (jstr s) => s != ""
  | some (jarr _) => true
  | some (jobj _) => true

/-- The elements of an array value (empty for non-arrays). -/
def arrElems : Option JsonVal → List JsonVal
  | some (jarr xs) => xs
  | _ => []

end JsonVal

/-- The four distinct rejection reasons of `handleImportFile`:
`'File too large (5MB max)'`, `'Could not read file'`,
`'Invalid file format'`, `'Corrupted data in file'`. -/
inductive ImportError
  | tooLarge
  | couldNotRead
  | invalidFormat
  | corruptedData
deriving DecidableEq

/-- The per-friend record check of `handleImportFile` (`App.tsx` line
1081): `typeof f?.id === 'string' && typeof f?.name === 'string' &&
typeof f?.cadenceDays === 'number' && f.cadenceDays > 0`. -/
def validFriendJson (f : JsonVal) : Bool :=
  JsonVal.isStr (f.getField "id") && JsonVal.isStr (f.getField "name") &&
    match f.getField "cadenceDays" with
    | some (JsonVal.jnum q) => 0 < q
    | _ => false

/-- The per-meeting record check of `handleImportFile` (`App.tsx` line
1082): `typeof m?.id === 'string' && typeof m?.friendId === 'string' &&
typeof m?.timestamp === 'number'`. -/
def validMeetingJson (m : JsonVal) : Bool :=
  JsonVal.isStr (m.getField "id") && JsonVal.isStr (m.getField "friendId") &&
    match m.getField "timestamp" with
    | some (JsonVal.jnum _) => true
    | _ => false

/-- Handler `handleImportFile` of `App.tsx` lines 1072–1089 (identical in
`part_001` lines 1256–1273), as a pure validator: the file size is the
`file.size` check, `parsed` is `none` when `JSON.parse` throws, and the
result is the accepted candidate or the specific rejection reason. -/
def handleImportFile (fileSize : ℕ) (parsed : Option JsonVal) :
    Except ImportError JsonVal :=
  if 5 * 1024 * 1024 < fileSize then .error .tooLarge
  else
    match parsed with
    | none => .error .couldNotRead
    | some data =>
      if !JsonVal.isArr (data.getField "friends")
          || !JsonVal.isArr (data.getField "meetings")
          || !JsonVal.truthy (data.getField "settings") then
        .error .invalidFormat
      else
        let validFriends := (JsonVal.arrElems (data.getField "friends")).all validFriendJson
        let validMeetings := (JsonVal.arrElems (data.getField "meetings")).all validMeetingJson
        if !validFriends || !validMeetings then .error .corruptedData
        else .ok data

/-- The import interaction at the snapshot level: validation touches
only the pending-import slot (`setImportData`) and the modal; the live
snapshot is replaced only by `confirmImport` after the user confirms an
accepted candidate. On any rejection the pair `(snapshot, error)` is
returned with the snapshot untouched. -/
def importFileStep (s : AppState) (fileSize : ℕ) (parsed : Option JsonVal) :
    AppState × Option JsonVal × Option ImportError :=
  match handleImportFile fileSize parsed with
  | .error e => (s, none, some e)
  | .ok data => (s, some data, none)

/-- The multiplier/streak invariant of §3 of the spec on one friend:
`multiplier = min(3.0, 1.0 + 0.1 × streakCount)`. -/
def multiplierInvariant (f : Friend) : Prop :=
  f.multiplier = min 3 (1 + (0.1 : ℚ) * f.streakCount)

instance (f : Friend) : Decidable (multiplierInvariant f) := by
  unfold multiplierInvariant; infer_instance

/-- The multiplier/streak invariant over a whole snapshot. -/
def SnapshotInv (s : AppState) : Prop :=
  ∀ f ∈ s.friends, multiplierInvariant f

/-! ## Helper lemmas -/

theorem getDaysUntilDue_some {t : ℚ} (ht : t ≠ 0) (cadence now : ℚ) :
    getDaysUntilDue (some t) cadence now
      = ((Int.ceil (cadence - (now - t) / 86400000) : ℤ) : ℚ) := by
  simp [getDaysUntilDue, ht]

theorem getDaysUntilDuePart0_some {t : ℚ} (ht : t ≠ 0) (cadence now : ℚ) :
    getDaysUntilDuePart0 (some t) cadence now
      = max 0 ((Int.ceil (cadence - (now - t) / 86400000) : ℤ) : ℚ) := by
  simp [getDaysUntilDuePart0, ht]

theorem getTimerColor_some {t : ℚ} (ht : t ≠ 0) (cadence now : ℚ) :
    getTimerColor (some t) cadence now
      = (if (now - t) / 86400000 / cadence * 100 < 60 then TimerColor.fresh
         else if (now - t) / 86400000 / cadence * 100 < 90 then TimerColor.approaching
         else TimerColor.attention) := by
  simp [getTimerColor, ht]

/-! ## C5 — days-until-due formula -/

/-- C5 counterexample: in the `part_000` version of `getDaysUntilDue`,
with `lastMeeting` 1 ms after epoch, `cadenceDays = 5` and `now` exactly
10 days later, the function returns `0`, not the negative value
`ceil(cadenceDays − elapsedDays) = −5` that the claim requires it to
return. -/
theorem days_until_due_clamped_counterexample :
    getDaysUntilDuePart0 (some 1) 5 (1 + 864000000) = 0 ∧
    ((Int.ceil ((5 : ℚ) - ((1 + 864000000 : ℚ) - 1) / 86400000) : ℤ) : ℚ) = -5 := by
  have h : Int.ceil ((5 : ℚ) - ((1 + 864000000 : ℚ) - 1) / 86400000) = -5 := by
    rw [Int.ceil_eq_iff]
    norm_num
  constructor
  · rw [getDaysUntilDuePart0_some (by norm_num), h]
    norm_num
  · rw [h]
    norm_num

/-- C5 amended: in `App.tsx` and `part_001`, `getDaysUntilDue` returns
`ceil(cadenceDays − elapsedDays)`, which can be negative (overdue by
that many days), and returns `cadenceDays` when `lastMeeting` is absent;
the `part_000` variant additionally clamps the present-`lastMeeting`
result at 0 and so never returns a negative value there. -/
theorem days_until_due_formula :
    (∀ cadence now : ℚ, getDaysUntilDue none cadence now = cadence) ∧
    (∀ t cadence now : ℚ, t ≠ 0 →
      getDaysUntilDue (some t) cadence now
        = ((Int.ceil (cadence - (now - t) / 86400000) : ℤ) : ℚ)) ∧
    (∃ lm : Option ℚ, ∃ cadence now : ℚ, getDaysUntilDue lm cadence now < 0) ∧
    (∀ cadence now : ℚ, getDaysUntilDuePart0 none cadence now = cadence) ∧
    (∀ t cadence now : ℚ, t ≠ 0 →
      getDaysUntilDuePart0 (some t) cadence now
        = max 0 (getDaysUntilDue (some t) cadence now)) := by
  refine ⟨fun _ _ => rfl, fun t c n ht => getDaysUntilDue_some ht c n,
    ⟨some 1, 5, 1 + 864000000, ?_⟩, fun _ _ => rfl,
    fun t c n ht => by rw [getDaysUntilDue_some ht, getDaysUntilDuePart0_some ht]⟩
  rw [getDaysUntilDue_some (by norm_num)]
  have h : Int.ceil ((5 : ℚ) - ((1 + 864000000 : ℚ) - 1) / 86400000) = -5 := by
    rw [Int.ceil_eq_iff]
    norm_num
  rw [h]
  norm_num

/-- C5 amended witness: concrete instantiations of the hypothesised
clauses at `t = 1`, `cadence = 5`, `now = 1 + 864000000` (10 days
later). -/
theorem days_until_due_formula_witness :
    getDaysUntilDue (some 1) 5 (1 + 864000000)
      = ((Int.ceil ((5 : ℚ) - ((1 + 864000000 : ℚ) - 1) / 86400000) : ℤ) : ℚ) ∧
    getDaysUntilDuePart0 (some 1) 5 (1 + 864000000)
      = max 0 (getDaysUntilDue (some 1) 5 (1 + 864000000)) :=
  ⟨days_until_due_formula.2.1 1 5 (1 + 864000000) (by norm_num),
   days_until_due_formula.2.2.2.2 1 5 (1 + 864000000) (by norm_num)⟩

/-! ## C4 — agreement of days-until-due and status color -/

/-- C4 counterexample: at `(lastMeeting, cadenceDays, now) =
(1, 10, 1 + 820800000)` — 9.5 days elapsed, 95% of the cadence —
`getTimerColor` reports overdue while `getDaysUntilDue = 1` is not
negative, refuting the claimed equivalence. -/
theorem due_overdue_iff_counterexample :
    ¬ ((getDaysUntilDue (some 1) 10 (1 + 820800000) < 0) ↔
       (getTimerColor (some 1) 10 (1 + 820800000) = TimerColor.attention)) := by
  have hdue : getDaysUntilDue (some 1) 10 (1 + 820800000) = 1 := by
    rw [getDaysUntilDue_some (by norm_num)]
    have h : Int.ceil ((10 : ℚ) - ((1 + 820800000 : ℚ) - 1) / 86400000) = 1 := by
      rw [Int.ceil_eq_iff]
      norm_num
    rw [h]
    norm_num
  have hcol : getTimerColor (some 1) 10 (1 + 820800000) = TimerColor.attention := by
    rw [getTimerColor_some (by norm_num), if_neg (by norm_num), if_neg (by norm_num)]
  intro h
  rw [hdue, hcol] at h
  exact absurd (h.mpr rfl) (by norm_num)

/-- C4 amended: the agreement holds in one direction only — whenever
`getDaysUntilDue` is negative, `getTimerColor` (computed from the same
injected instant, cadence ≥ 1) reports overdue; the converse fails
because the overdue band already starts at 90% of the cadence. -/
theorem overdue_when_days_negative (lm : Option ℚ) (cadence now : ℚ)
    (hcad : 1 ≤ cadence) (hneg : getDaysUntilDue lm cadence now < 0) :
    getTimerColor lm cadence now = TimerColor.attention := by
  match lm with
  | none =>
    simp only [getDaysUntilDue] at hneg
    linarith
  | some t =>
    by_cases ht : t = 0
    · subst ht
      simp only [getDaysUntilDue, if_true] at hneg
      linarith
    · rw [getDaysUntilDue_some ht] at hneg
      have h1 : Int.ceil (cadence - (now - t) / 86400000) < 0 := by exact_mod_cast hneg
      have h2 : Int.ceil (cadence - (now - t) / 86400000) ≤ -1 := by omega
      have h3 : cadence - (now - t) / 86400000 ≤ ((-1 : ℤ) : ℚ) := Int.ceil_le.mp h2
      have hdge : cadence + 1 ≤ (now - t) / 86400000 := by
        push_cast at h3
        linarith
      have hc0 : (0 : ℚ) < cadence := by linarith
      rw [getTimerColor_some ht, if_neg ?h60, if_neg ?h90]
      case h60 =>
        rw [div_mul_eq_mul_div, not_lt, le_div_iff₀ hc0]
        nlinarith
      case h90 =>
        rw [div_mul_eq_mul_div, not_lt, le_div_iff₀ hc0]
        nlinarith

/-- C4 amended witness: at `t = 1`, `cadence = 1`, `now` 3 days later,
`getDaysUntilDue = −2 < 0` and the status is indeed overdue. -/
theorem overdue_when_days_negative_witness :
    getDaysUntilDue (some 1) 1 (1 + 259200000) < 0 ∧
    getTimerColor (some 1) 1 (1 + 259200000) = TimerColor.attention := by
  have hneg : getDaysUntilDue (some 1) 1 (1 + 259200000) < 0 := by
    rw [getDaysUntilDue_some (by norm_num)]
    have h : Int.ceil ((1 : ℚ) - ((1 + 259200000 : ℚ) - 1) / 86400000) = -2 := by
      rw [Int.ceil_eq_iff]
      norm_num
    rw [h]
    norm_num
  exact ⟨hneg, overdue_when_days_negative (some 1) 1 (1 + 259200000) (by norm_num) hneg⟩

theorem find?_map_of_pred {α : Type} (p : α → Bool) (g : α → α)
    (hp : ∀ x, p (g x) = p x) (l : List α) :
    List.find? p (l.map g) = (List.find? p l).map g := by
  induction l with
  | nil => rfl
  | cons x xs ih =>
    simp only [List.map_cons, List.find?]
    rw [hp x]
    cases hx : p x <;> simp [ih]

theorem forall2_map_self {α : Type} (R : α → α → Prop) (g : α → α) (l : List α)
    (h : ∀ x ∈ l, R x (g x)) : List.Forall₂ R l (l.map g) := by
  induction l with
  | nil => simp
  | cons x xs ih =>
    exact List.Forall₂.cons (h x (by simp)) (ih fun y hy => h y (by simp [hy]))

/-! ## C1 — streak transition on logging a meeting -/

/-- C1: logging a meeting (with a note via `handleLogMeeting`, or via
quick-log) updates the logged friend's streak to: 1 on a first-ever
meeting; `streakCount + 1` when `floor((now − lastMeetingDate)/86400000)
≤ cadenceDays` (boundary inclusive); and 1 (never 0) when that gap
exceeds `cadenceDays`.  The present-timestamp cases are stated for
`t ≠ 0` (the engine only ever stores `Date.now()` values; the number `0`
is JS-falsy and treated as absent by the source). -/
theorem streak_transition_rule (s : AppState) (fid : String) (note : Option String)
    (now : ℚ) (mid : String) (fr : Friend)
    (hfind : s.friends.find? (fun f => f.id = fid) = some fr) :
    ∃ fr',
      (handleLogMeeting s fid note now mid).friends.find? (fun f => f.id = fid) = some fr' ∧
      (handleQuickLogWithoutNote s fid now mid).friends.find? (fun f => f.id = fid) = some fr' ∧
      (fr.lastMeetingDate = none → fr'.streakCount = 1) ∧
      (∀ t : ℚ, fr.lastMeetingDate = some t → t ≠ 0 →
        (((Int.floor ((now - t) / 86400000) : ℤ) : ℚ) ≤ fr.cadenceDays →
            fr'.streakCount = fr.streakCount + 1) ∧
        (fr.cadenceDays < ((Int.floor ((now - t) / 86400000) : ℤ) : ℚ) →
            fr'.streakCount = 1)) := by
  have hfid : fr.id = fid := by
    have := List.find?_some hfind
    exact of_decide_eq_true this
  set ns := newStreakOnLog fr.lastMeetingDate fr.streakCount fr.cadenceDays now with hns
  set g : Friend → Friend := fun f =>
    if f.id = fid then
      { f with lastMeetingDate := some now, streakCount := ns,
               multiplier := newMultiplierOnLog ns,
               totalMeetings := f.totalMeetings + 1, updatedAt := now }
    else f with hg
  have hfr : ∀ note', (handleLogMeeting s fid note' now mid).friends = s.friends.map g := by
    intro note'
    simp only [handleLogMeeting, hfind, hg]
  have hp : ∀ f : Friend, decide ((g f).id = fid) = decide (f.id = fid) := by
    intro f
    by_cases hid : f.id = fid <;> simp [hg, hid]
  have hfind' : ∀ note',
      (handleLogMeeting s fid note' now mid).friends.find? (fun f => f.id = fid)
        = some (g fr) := by
    intro note'
    rw [hfr note', find?_map_of_pred _ _ hp, hfind]
    rfl
  have hgfr : g fr
      = { fr with lastMeetingDate := some now, streakCount := ns,
                  multiplier := newMultiplierOnLog ns,
                  totalMeetings := fr.totalMeetings + 1, updatedAt := now } := by
    simp [hg, hfid]
  refine ⟨g fr, hfind' note, hfind' none, ?_, ?_⟩
  · intro hnone
    rw [hgfr]
    simp [hns, newStreakOnLog, jsTruthy, hnone]
  · intro t ht hz
    constructor
    · intro hle
      rw [hgfr]
      simp [hns, newStreakOnLog, jsTruthy, daysSinceLastMeeting, ht, hz, hle]
    · intro hgt
      rw [hgfr]
      simp [hns, newStreakOnLog, jsTruthy, daysSinceLastMeeting, ht, hz, not_le.mpr hgt]

/-- Settings value used by the concrete witness states. -/
def witnessSettings : AppSettings :=
  { theme := ThemePref.auto, notificationsEnabled := true,
    dailySummaryInterval := 30, thresholdAlertsEnabled := true,
    hasCompletedOnboarding := true }

/-- Concrete friend for the C1 witness: cadence 7, streak 2, last met at
day 1 (timestamp 86400000 ms). -/
def anaFriend : Friend :=
  { id := "f1", name := "Ana", relationshipTier := Tier.close, cadenceDays := 7,
    lastMeetingDate := some 86400000, streakCount := 2, multiplier := 1.2,
    totalMeetings := 2, isArchived := false, createdAt := 0, updatedAt := 0 }

/-- Concrete snapshot for the C1 witness. -/
def anaState : AppState :=
  { friends := [anaFriend], meetings := [], settings := witnessSettings }

/-- C1 witness: logging again at day 8 — a gap of exactly the cadence
(7 days) — extends Ana's streak from 2 to 3. -/
theorem streak_transition_rule_witness :
    ∃ fr', (handleLogMeeting anaState "f1" none 691200000 "m3").friends.find?
        (fun f => f.id = "f1") = some fr' ∧
      fr'.streakCount = 2 + 1 := by
  obtain ⟨fr', h1, _, _, h4⟩ :=
    streak_transition_rule anaState "f1" none 691200000 "m3" anaFriend (by rfl)
  have hle : ((Int.floor (((691200000 : ℚ) - 86400000) / 86400000) : ℤ) : ℚ)
      ≤ anaFriend.cadenceDays := by
    have h : Int.floor (((691200000 : ℚ) - 86400000) / 86400000) = 7 := by
      rw [Int.floor_eq_iff]
      norm_num
    rw [h]
    show ((7 : ℤ) : ℚ) ≤ (7 : ℚ)
    norm_num
  have := (h4 86400000 (by rfl) (by norm_num)).1 hle
  exact ⟨fr', h1, by rw [this]; rfl⟩

/-! ## C10 — editing a friend is frame-preserving -/

/-- C10: `handleEditFriend` changes only the selected friend's `name`,
`relationshipTier`, `cadenceDays` and `updatedAt`; its `streakCount`,
`multiplier`, `totalMeetings`, `lastMeetingDate`, `isArchived`, `id` and
`createdAt` are unchanged, every other friend is unchanged, and the
meetings list (and settings) is unchanged — so, in particular,
shortening the cadence never resets an existing streak. -/
theorem edit_friend_frame (s : AppState) (fid : String) (d : SaveData) (now : ℚ) :
    (handleEditFriend s fid d now).meetings = s.meetings ∧
    (handleEditFriend s fid d now).settings = s.settings ∧
    List.Forall₂ (fun f f' =>
        f'.id = f.id ∧ f'.streakCount = f.streakCount ∧ f'.multiplier = f.multiplier ∧
        f'.totalMeetings = f.totalMeetings ∧ f'.lastMeetingDate = f.lastMeetingDate ∧
        f'.isArchived = f.isArchived ∧ f'.createdAt = f.createdAt ∧
        (f.id ≠ fid → f' = f) ∧
        (f.id = fid → f'.name = d.name ∧ f'.relationshipTier = d.relationshipTier ∧
          f'.cadenceDays = d.cadenceDays ∧ f'.updatedAt = now))
      s.friends (handleEditFriend s fid d now).friends := by
  refine ⟨rfl, rfl, ?_⟩
  apply forall2_map_self
  intro f _
  by_cases hid : f.id = fid <;> simp [hid]

/-- C10 witness: editing Ana's cadence from 7 down to 3 at time 10
leaves her streak, multiplier, meeting counters and identity intact. -/
theorem edit_friend_frame_witness :
    (handleEditFriend anaState "f1"
        { name := "Ana", relationshipTier := Tier.casual, cadenceDays := 3 } 10).meetings
      = anaState.meetings ∧
    List.Forall₂ (fun f f' =>
        f'.id = f.id ∧ f'.streakCount = f.streakCount ∧ f'.multiplier = f.multiplier ∧
        f'.totalMeetings = f.totalMeetings ∧ f'.lastMeetingDate = f.lastMeetingDate ∧
        f'.isArchived = f.isArchived ∧ f'.createdAt = f.createdAt ∧
        (f.id ≠ "f1" → f' = f) ∧
        (f.id = "f1" → f'.name = "Ana" ∧ f'.relationshipTier = Tier.casual ∧
          f'.cadenceDays = 3 ∧ f'.updatedAt = 10))
      anaState.friends
      (handleEditFriend anaState "f1"
        { name := "Ana", relationshipTier := Tier.casual, cadenceDays := 3 } 10).friends := by
  have h := edit_friend_frame anaState "f1"
    { name := "Ana", relationshipTier := Tier.casual, cadenceDays := 3 } 10
  exact ⟨h.1, h.2.2⟩

/-! ## C9 — ten-friend capacity, enforced at creation only -/

/-- C9: with 10 non-archived friends present, an attempted add is
rejected with the capacity-specific reason (`'Friend limit reached (10
max)'`) — or the name-specific reason (`'Name is required'`) when the
trimmed name is empty — no friend is added, the non-archived count stays
10, and the limit is not applied in edit mode. -/
theorem friend_capacity_enforcement (s : AppState) (name : String) (tier : Tier)
    (cadence : ℚ) (newId : String) (now : ℚ) (hcount : activeFriendCount s = 10) :
    (jsTrim name ≠ "" →
      addFriendFlow s name tier cadence newId now = (s, some SaveError.limitReached)) ∧
    (jsTrim name = "" →
      addFriendFlow s name tier cadence newId now = (s, some SaveError.nameRequired)) ∧
    activeFriendCount (addFriendFlow s name tier cadence newId now).1 = 10 ∧
    (∀ fc : ℕ, jsTrim name ≠ "" →
      handleSave true name tier cadence fc
        = .ok { name := jsTrim name, relationshipTier := tier, cadenceDays := cadence }) := by
  have hlimit : jsTrim name ≠ "" →
      addFriendFlow s name tier cadence newId now = (s, some SaveError.limitReached) := by
    intro hname
    simp [addFriendFlow, handleSave, hname, hcount]
  have hempty : jsTrim name = "" →
      addFriendFlow s name tier cadence newId now = (s, some SaveError.nameRequired) := by
    intro hname
    simp [addFriendFlow, handleSave, hname]
  refine ⟨hlimit, hempty, ?_, ?_⟩
  · by_cases hname : jsTrim name = ""
    · rw [hempty hname]
      exact hcount
    · rw [hlimit hname]
      exact hcount
  · intro fc hname
    simp [handleSave, hname]

/-- A snapshot holding ten distinct non-archived friends, for the C9
witness. -/
def tenFriendState : AppState :=
  { friends := (List.range 10).map fun i =>
      { id := toString i, name := "F" ++ toString i, relationshipTier := Tier.close,
        cadenceDays := 14, lastMeetingDate := none, streakCount := 0, multiplier := 1,
        totalMeetings := 0, isArchived := false, createdAt := 0, updatedAt := 0 },
    meetings := [], settings := witnessSettings }

/-- C9 witness: adding an 11th friend named "Kai" to a ten-friend
snapshot is rejected with the capacity reason and the count stays 10;
saving an empty name is rejected with the name reason; an edit-mode save
is not capacity-limited. -/
theorem friend_capacity_enforcement_witness :
    addFriendFlow tenFriendState "Kai" Tier.close 7 "new" 99
      = (tenFriendState, some SaveError.limitReached) ∧
    addFriendFlow tenFriendState "   " Tier.close 7 "new" 99
      = (tenFriendState, some SaveError.nameRequired) ∧
    activeFriendCount (addFriendFlow tenFriendState "Kai" Tier.close 7 "new" 99).1 = 10 ∧
    handleSave true "Kai" Tier.close 7 10
      = .ok { name := "Kai", relationshipTier := Tier.close, cadenceDays := 7 } := by
  have hcount : activeFriendCount tenFriendState = 10 := by decide
  have h1 := friend_capacity_enforcement tenFriendState "Kai" Tier.close 7 "new" 99 hcount
  have h2 := friend_capacity_enforcement tenFriendState "   " Tier.close 7 "new" 99 hcount
  refine ⟨h1.1 (by decide), h2.2.1 (by decide), h1.2.2.1, ?_⟩
  have := h1.2.2.2 10 (by decide)
  simpa using this

/-! ## C3 — health score matches the reference algorithm -/

/-- C3: `calculateHealthScore` coincides with the spec's reference
algorithm (`healthScoreSpec`) on every friend and meeting list — in
particular it returns exactly 50 whenever `totalMeetings < 2` (and when
fewer than two of the friend's meetings survive filtering), and
otherwise the weighted, un-clamped rounded blend of steps 4–10. -/
theorem health_score_matches_reference (friend : Friend) (meetings : List Meeting) :
    calculateHealthScore friend meetings = healthScoreSpec friend meetings ∧
    (friend.totalMeetings < 2 → calculateHealthScore friend meetings = 50) := by
  constructor
  · rfl
  · intro h
    simp [calculateHealthScore, h]

/-- Friend with no recorded meetings, for the C3 witness. -/
def rioFriend : Friend :=
  { id := "r1", name := "Rio", relationshipTier := Tier.casual, cadenceDays := 30,
    lastMeetingDate := none, streakCount := 0, multiplier := 1, totalMeetings := 0,
    isArchived := false, createdAt := 0, updatedAt := 0 }

/-- C3 witness: with zero recorded meetings the score is exactly the
neutral 50, and code and reference agree there. -/
theorem health_score_matches_reference_witness :
    calculateHealthScore rioFriend [] = healthScoreSpec rioFriend [] ∧
    calculateHealthScore rioFriend [] = 50 :=
  ⟨(health_score_matches_reference rioFriend []).1,
   (health_score_matches_reference rioFriend []).2 (by norm_num [rioFriend])⟩

/-! ## C7 — delete followed by undo restores the state -/

theorem filter_find_perm (fid : String) (fr : Friend) :
    ∀ l : List Friend, l.find? (fun f => f.id = fid) = some fr →
      (l.map Friend.id).Nodup →
      List.Perm (l.filter (fun f => ¬(f.id = fid)) ++ [fr]) l := by
  intro l
  induction l with
  | nil => intro h; cases h
  | cons x xs ih =>
    intro hfind hnodup
    simp only [List.map_cons, List.nodup_cons] at hnodup
    by_cases hx : x.id = fid
    · have hfr : fr = x := by
        simp only [List.find?, decide_eq_true hx] at hfind
        exact (Option.some_injective _ hfind).symm
      have hxs : xs.filter (fun f => ¬(f.id = fid)) = xs := by
        apply List.filter_eq_self.mpr
        intro y hy
        have hy' : y.id ≠ fid := by
          intro heq
          have hxy : x.id = y.id := by rw [hx, heq]
          exact hnodup.1 (hxy ▸ List.mem_map_of_mem Friend.id hy)
        simp [hy']
      rw [List.filter_cons_of_neg (by simp [hx]), hxs, hfr]
      exact List.perm_append_singleton x xs
    · have hfind' : xs.find? (fun f => f.id = fid) = some fr := by
        simpa [List.find?, hx] using hfind
      rw [List.filter_cons_of_pos (by simp [hx]), List.cons_append]
      exact List.Perm.cons x (ih hfind' hnodup.2)

/-- C7: deleting a friend and invoking undo restores the friend record
verbatim and re-inserts exactly the removed meeting set: the undo buffer
holds the friend and its meetings field-for-field, the post-undo friend
and meeting lists are permutations of the pre-delete ones, looking the
friend up again yields the identical record, and the friend's meeting
list is exactly its pre-delete value. -/
theorem delete_undo_roundtrip (s : AppState) (fid : String) (fr : Friend)
    (hfind : s.friends.find? (fun f => f.id = fid) = some fr)
    (hnodup : (s.friends.map Friend.id).Nodup) :
    ∃ s₁ buf, handleDeleteFriend s fid = (s₁, some buf) ∧
      buf.friend = fr ∧
      buf.deletedMeetings = s.meetings.filter (fun m => m.friendId = fid) ∧
      List.Perm (applyUndo s₁ buf).friends s.friends ∧
      List.Perm (applyUndo s₁ buf).meetings s.meetings ∧
      (applyUndo s₁ buf).friends.find? (fun f => f.id = fid) = some fr ∧
      (applyUndo s₁ buf).meetings.filter (fun m => m.friendId = fid)
        = s.meetings.filter (fun m => m.friendId = fid) ∧
      (applyUndo s₁ buf).settings = s.settings := by
  refine ⟨{ s with friends := s.friends.filter (fun f => ¬(f.id = fid)),
                   meetings := s.meetings.filter (fun m => ¬(m.friendId = fid)) },
    { friend := fr, deletedMeetings := s.meetings.filter (fun m => m.friendId = fid) },
    by simp only [handleDeleteFriend, hfind], rfl, rfl, ?_, ?_, ?_, ?_, rfl⟩
  · exact filter_find_perm fid fr s.friends hfind hnodup
  · show List.Perm (s.meetings.filter (fun m => ¬(m.friendId = fid))
        ++ s.meetings.filter (fun m => m.friendId = fid)) s.meetings
    have h := List.filter_append_perm (fun m => decide (m.friendId = fid)) s.meetings
    refine List.Perm.trans (List.perm_append_comm.trans ?_) h
    simp [decide_not]
  · show List.find? _ (s.friends.filter (fun f => ¬(f.id = fid)) ++ [fr]) = some fr
    rw [List.find?_append]
    have h1 : (s.friends.filter (fun f => ¬(f.id = fid))).find?
        (fun f => f.id = fid) = none := by
      apply List.find?_eq_none.mpr
      intro x hx
      have := (List.mem_filter.mp hx).2
      simpa using this
    have h2 : List.find? (fun f => decide (f.id = fid)) [fr] = some fr := by
      have hfr := List.find?_some hfind
      have hid : fr.id = fid := of_decide_eq_true hfr
      simp [List.find?, hid]
    rw [h1, h2]
    rfl
  · show (s.meetings.filter (fun m => ¬(m.friendId = fid))
        ++ s.meetings.filter (fun m => m.friendId = fid)).filter
          (fun m => m.friendId = fid) = _
    rw [List.filter_append, List.filter_filter]
    have h1 : (s.meetings.filter fun m =>
        decide (m.friendId = fid) && decide ¬(m.friendId = fid)) = [] := by
      apply List.filter_eq_nil_iff.mpr
      intro m _
      by_cases hm : m.friendId = fid <;> simp [hm]
    have h2 : (s.meetings.filter (fun m => m.friendId = fid)).filter
        (fun m => m.friendId = fid) = s.meetings.filter (fun m => m.friendId = fid) := by
      apply List.filter_eq_self.mpr
      intro m hm
      exact (List.mem_filter.mp hm).2
    rw [h1, h2, List.nil_append]

/-- Friend "Ada" (id `"a"`), used by the delete/undo witnesses. -/
def friendA : Friend :=
  { id := "a", name := "Ada", relationshipTier := Tier.close, cadenceDays := 7,
    lastMeetingDate := some 86400000, streakCount := 1, multiplier := 1,
    totalMeetings := 1, isArchived := false, createdAt := 0, updatedAt := 0 }

/-- Friend "Bea" (id `"b"`), used by the delete/undo witnesses. -/
def friendB : Friend :=
  { id := "b", name := "Bea", relationshipTier := Tier.casual, cadenceDays := 30,
    lastMeetingDate := some 172800000, streakCount := 1, multiplier := 1,
    totalMeetings := 1, isArchived := false, createdAt := 0, updatedAt := 0 }

/-- A meeting of friend `"a"`. -/
def meetA : Meeting :=
  { id := "ma", friendId := "a", timestamp := 86400000, note := none,
    createdAt := 86400000 }

/-- A meeting of friend `"b"`. -/
def meetB : Meeting :=
  { id := "mb", friendId := "b", timestamp := 172800000, note := none,
    createdAt := 172800000 }

/-- Snapshot holding Ada and Bea with one meeting each. -/
def twoFriendState : AppState :=
  { friends := [friendA, friendB], meetings := [meetA, meetB],
    settings := witnessSettings }

/-- C7 witness: deleting Ada from the two-friend snapshot and undoing
restores her record and meeting set exactly. -/
theorem delete_undo_roundtrip_witness :
    ∃ s₁ buf, handleDeleteFriend twoFriendState "a" = (s₁, some buf) ∧
      buf.friend = friendA ∧
      buf.deletedMeetings = twoFriendState.meetings.filter (fun m => m.friendId = "a") ∧
      List.Perm (applyUndo s₁ buf).friends twoFriendState.friends ∧
      List.Perm (applyUndo s₁ buf).meetings twoFriendState.meetings ∧
      (applyUndo s₁ buf).friends.find? (fun f => f.id = "a") = some friendA ∧
      (applyUndo s₁ buf).meetings.filter (fun m => m.friendId = "a")
        = twoFriendState.meetings.filter (fun m => m.friendId = "a") ∧
      (applyUndo s₁ buf).settings = twoFriendState.settings :=
  delete_undo_roundtrip twoFriendState "a" friendA (by rfl) (by decide)

/-! ## C8 — the undo mechanism is a toast queue, not a single slot -/

/-- Toast/undo bookkeeping after deleting Ada from the two-friend
snapshot with an empty toast list. -/
def afterDeleteA : AppState × List UndoBuffer :=
  deleteFriendWithToast twoFriendState [] "a"

/-- Toast/undo bookkeeping after then deleting Bea. -/
def afterDeleteB : AppState × List UndoBuffer :=
  deleteFriendWithToast afterDeleteA.1 afterDeleteA.2 "b"

/-- The undo data captured by Ada's delete. -/
def bufA : UndoBuffer :=
  { friend := friendA, deletedMeetings := [meetA] }

/-- C8 counterexample: after deleting Ada and then Bea, Ada's undo
toast is still in the toast list (nothing supersedes it), and invoking
its action re-inserts Ada's friend record and meeting into the live
snapshot — the claim says this can never happen. -/
theorem undo_not_superseded_counterexample :
    afterDeleteA.2 = [bufA] ∧
    afterDeleteB.2 = [bufA, { friend := friendB, deletedMeetings := [meetB] }] ∧
    (applyUndo afterDeleteB.1 bufA).friends = [friendA] ∧
    (applyUndo afterDeleteB.1 bufA).meetings = [meetA] := by
  exact ⟨rfl, rfl, rfl, rfl⟩

/-- C8 amended: each delete appends an undo toast — holding the removed
friend and meetings — to the existing toast list; a second delete queues
after rather than supersedes earlier toasts, every earlier toast
remains, and invoking any held toast's action re-inserts its friend
into the then-current snapshot. -/
theorem undo_toasts_accumulate (s : AppState) (toasts : List UndoBuffer) (fid : String)
    (fr : Friend) (hfind : s.friends.find? (fun f => f.id = fid) = some fr) :
    (deleteFriendWithToast s toasts fid).2
      = toasts ++ [{ friend := fr,
                     deletedMeetings := s.meetings.filter fun m => m.friendId = fid }] ∧
    (∀ buf ∈ toasts, buf ∈ (deleteFriendWithToast s toasts fid).2) ∧
    (∀ buf : UndoBuffer,
      buf.friend ∈ (applyUndo (deleteFriendWithToast s toasts fid).1 buf).friends) := by
  have hdel : deleteFriendWithToast s toasts fid
      = ({ s with friends := s.friends.filter (fun f => ¬(f.id = fid)),
                  meetings := s.meetings.filter (fun m => ¬(m.friendId = fid)) },
         toasts ++ [{ friend := fr,
                      deletedMeetings := s.meetings.filter fun m => m.friendId = fid }]) := by
    simp only [deleteFriendWithToast, handleDeleteFriend, hfind]
  refine ⟨by rw [hdel], ?_, ?_⟩
  · intro buf hb
    rw [hdel]
    exact List.mem_append_left _ hb
  · intro buf
    rw [hdel]
    simp [applyUndo]

/-- C8 amended witness: concrete instantiation — deleting Ada appends
her undo toast to the empty toast list, and firing that toast's action
re-inserts Ada. -/
theorem undo_toasts_accumulate_witness :
    afterDeleteA.2
      = [] ++ [{ friend := friendA,
                 deletedMeetings :=
                   twoFriendState.meetings.filter fun m => m.friendId = "a" }] ∧
    bufA.friend ∈ (applyUndo afterDeleteA.1 bufA).friends := by
  have h := undo_toasts_accumulate twoFriendState [] "a" friendA (by rfl)
  exact ⟨h.1, h.2.2 bufA⟩

/-! ## C2 — the multiplier/streak invariant across mutations -/

/-- Invariant-violating friend record: multiplier 3 with streak 0
(the invariant demands multiplier 1). -/
def boFriend : Friend :=
  { id := "x", name := "Bo", relationshipTier := Tier.close, cadenceDays := 7,
    lastMeetingDate := none, streakCount := 0, multiplier := 3, totalMeetings := 0,
    isArchived := false, createdAt := 0, updatedAt := 0 }

/-- An import candidate carrying `boFriend`; its shape and record
fields satisfy everything `handleImportFile` checks. -/
def boCandidate : DataExport :=
  { version := "4.3.0", exportedAt := 0, friends := [boFriend], meetings := [],
    settings := { theme := ThemePref.auto, notificationsEnabled := true,
                  dailySummaryInterval := 30, thresholdAlertsEnabled := true,
                  hasCompletedOnboarding := false } }

/-- The JSON form of `boCandidate` as `JSON.parse` would deliver it. -/
def boCandidateJson : JsonVal :=
  JsonVal.jobj
    [("version", JsonVal.jstr "4.3.0"),
     ("exportedAt", JsonVal.jnum 0),
     ("friends", JsonVal.jarr
        [JsonVal.jobj
          [("id", JsonVal.jstr "x"), ("name", JsonVal.jstr "Bo"),
           ("cadenceDays", JsonVal.jnum 7), ("lastMeetingDate", JsonVal.jnull),
           ("streakCount", JsonVal.jnum 0), ("multiplier", JsonVal.jnum 3),
           ("totalMeetings", JsonVal.jnum 0), ("isArchived", JsonVal.jbool false),
           ("createdAt", JsonVal.jnum 0), ("updatedAt", JsonVal.jnum 0)]]),
     ("meetings", JsonVal.jarr []),
     ("settings", JsonVal.jobj [("theme", JsonVal.jstr "auto")])]

/-- C2 counterexample: the import mutation does not re-establish the
invariant — the candidate holding a friend with multiplier 3 and streak
0 passes `handleImportFile` validation, and after `confirmImport` the
live snapshot violates `multiplier = min(3.0, 1.0 + 0.1 × streakCount)`. -/
theorem multiplier_invariant_import_counterexample :
    handleImportFile 100 (some boCandidateJson) = .ok boCandidateJson ∧
    ¬ SnapshotInv (confirmImport boCandidate) := by
  constructor
  · rfl
  · intro h
    have hmem : boFriend ∈ (confirmImport boCandidate).friends := by
      show boFriend ∈ [boFriend]
      exact List.mem_singleton.mpr rfl
    have := h boFriend hmem
    rw [multiplierInvariant] at this
    norm_num [boFriend] at this

/-- C2 amended: every mutation except import preserves the invariant
(logging establishes it outright for the logged friend, adding for the
new friend; undo needs it of the buffered friend), while import
re-establishes it only when the imported candidate itself satisfies
it — the validator never checks the stored multiplier. -/
theorem multiplier_invariant_preservation (s : AppState) (hs : SnapshotInv s) :
    (∀ (d : SaveData) (newId : String) (now : ℚ),
      SnapshotInv (handleAddFriend s d newId now)) ∧
    (∀ (fid : String) (d : SaveData) (now : ℚ),
      SnapshotInv (handleEditFriend s fid d now)) ∧
    (∀ (fid : String) (note : Option String) (now : ℚ) (mid : String),
      SnapshotInv (handleLogMeeting s fid note now mid)) ∧
    (∀ (fid : String) (now : ℚ) (mid : String),
      SnapshotInv (handleQuickLogWithoutNote s fid now mid)) ∧
    (∀ fid : String, SnapshotInv (handleDeleteFriend s fid).1) ∧
    (∀ buf : UndoBuffer, multiplierInvariant buf.friend →
      SnapshotInv (applyUndo s buf)) ∧
    (∀ d : DataExport, (∀ f ∈ d.friends, multiplierInvariant f) →
      SnapshotInv (confirmImport d)) := by
  have hlog : ∀ (fid : String) (note : Option String) (now : ℚ) (mid : String),
      SnapshotInv (handleLogMeeting s fid note now mid) := by
    intro fid note now mid f hf
    rw [handleLogMeeting] at hf
    cases hfind : s.friends.find? (fun fr => fr.id = fid) with
    | none =>
      rw [hfind] at hf
      exact hs f hf
    | some fr =>
      rw [hfind] at hf
      obtain ⟨f₀, hf₀, hmap⟩ := List.mem_map.mp hf
      subst hmap
      have h₀ := hs f₀ hf₀
      by_cases hid : f₀.id = fid
      · simp only [multiplierInvariant, hid, if_pos]
        rw [newMultiplierOnLog]
        ring_nf
      · simpa [multiplierInvariant, hid] using h₀
  refine ⟨?_, ?_, hlog, fun fid now mid => hlog fid none now mid, ?_, ?_, ?_⟩
  · intro d newId now f hf
    rcases List.mem_append.mp hf with hf | hf
    · exact hs f hf
    · have hfeq := List.mem_singleton.mp hf
      subst hfeq
      rw [multiplierInvariant]
      norm_num
  · intro fid d now f hf
    obtain ⟨f₀, hf₀, hmap⟩ := List.mem_map.mp hf
    subst hmap
    have h₀ := hs f₀ hf₀
    by_cases hid : f₀.id = fid <;> simpa [multiplierInvariant, hid] using h₀
  · intro fid f hf
    rw [handleDeleteFriend] at hf
    cases hfind : s.friends.find? (fun fr => fr.id = fid) with
    | none =>
      rw [hfind] at hf
      exact hs f hf
    | some fr =>
      rw [hfind] at hf
      exact hs f (List.mem_of_mem_filter hf)
  · intro buf hbuf f hf
    rcases List.mem_append.mp hf with hf | hf
    · exact hs f hf
    · have hfeq := List.mem_singleton.mp hf
      subst hfeq
      exact hbuf
  · intro d hd f hf
    exact hd f hf

/-- C2 amended witness: the invariant holds of the one-friend snapshot
`anaState` (multiplier 1.2 at streak 2), and is preserved by a quick-log
and by a delete there. -/
theorem multiplier_invariant_preservation_witness :
    SnapshotInv (handleQuickLogWithoutNote anaState "f1" 691200000 "m3") ∧
    SnapshotInv (handleDeleteFriend anaState "f1").1 := by
  have hs : SnapshotInv anaState := by
    intro f hf
    have hfa : f = anaFriend := List.mem_singleton.mp hf
    subst hfa
    rw [multiplierInvariant]
    norm_num [anaFriend, min_def]
  have h := multiplier_invariant_preservation anaState hs
  exact ⟨h.2.2.2.1 "f1" 691200000 "m3", h.2.2.2.2.1 "f1"⟩

/-! ## C6 — import validation -/

/-- A friend record whose `id` and `name` are the empty string — typed
correctly but violating the claim's non-emptiness requirement. -/
def emptyNameFriendJson : JsonVal :=
  JsonVal.jobj
    [("id", JsonVal.jstr ""), ("name", JsonVal.jstr ""), ("cadenceDays", JsonVal.jnum 7)]

/-- An import candidate containing `emptyNameFriendJson`. -/
def emptyNameCandidateJson : JsonVal :=
  JsonVal.jobj
    [("friends", JsonVal.jarr [emptyNameFriendJson]),
     ("meetings", JsonVal.jarr []),
     ("settings", JsonVal.jobj [("theme", JsonVal.jstr "dark")])]

/-- C6 counterexample: a candidate whose only friend has the empty
string as both `id` and `name` is accepted by `handleImportFile` — the
validator checks `typeof === 'string'` but never non-emptiness, so the
claim's "non-empty string id / name" acceptance condition is false. -/
theorem import_accepts_empty_name :
    handleImportFile 100 (some emptyNameCandidateJson) = .ok emptyNameCandidateJson ∧
    emptyNameFriendJson.getField "name" = some (JsonVal.jstr "") ∧
    emptyNameFriendJson.getField "id" = some (JsonVal.jstr "") :=
  ⟨rfl, rfl, rfl⟩

theorem handleImportFile_some (size : ℕ) (data : JsonVal)
    (hsize : size ≤ 5 * 1024 * 1024) :
    handleImportFile size (some data)
      = (if (!JsonVal.isArr (data.getField "friends")
            || !JsonVal.isArr (data.getField "meetings")
            || !JsonVal.truthy (data.getField "settings")) = true then
           .error .invalidFormat
         else if (!(JsonVal.arrElems (data.getField "friends")).all validFriendJson
            || !(JsonVal.arrElems (data.getField "meetings")).all validMeetingJson)
              = true then
           .error .corruptedData
         else .ok data) := by
  rw [handleImportFile, if_neg (not_lt.mpr hsize)]

/-- C6 amended: an import candidate is accepted exactly when the file is
within the 5MB bound, the bytes parse, `friends` and `meetings` are
arrays with a truthy `settings`, every friend has a string `id`, string
`name` and positive numeric `cadenceDays`, and every meeting has a
string `id`, string `friendId` and numeric `timestamp` (emptiness of the
strings is not checked); each violation is rejected with its own reason
— oversized file, unparseable bytes, wrong shape, corrupted record
fields — and the validation step never changes the live snapshot. -/
theorem import_validation_characterization :
    (∀ (size : ℕ) (parsed : Option JsonVal) (d : JsonVal),
      handleImportFile size parsed = .ok d ↔
        (size ≤ 5 * 1024 * 1024 ∧ parsed = some d ∧
         JsonVal.isArr (d.getField "friends") = true ∧
         JsonVal.isArr (d.getField "meetings") = true ∧
         JsonVal.truthy (d.getField "settings") = true ∧
         (JsonVal.arrElems (d.getField "friends")).all validFriendJson = true ∧
         (JsonVal.arrElems (d.getField "meetings")).all validMeetingJson = true)) ∧
    (∀ (size : ℕ) (parsed : Option JsonVal), 5 * 1024 * 1024 < size →
      handleImportFile size parsed = .error .tooLarge) ∧
    (∀ size : ℕ, size ≤ 5 * 1024 * 1024 →
      handleImportFile size none = .error .couldNotRead) ∧
    (∀ (size : ℕ) (d : JsonVal), size ≤ 5 * 1024 * 1024 →
      (JsonVal.isArr (d.getField "friends") = false ∨
       JsonVal.isArr (d.getField "meetings") = false ∨
       JsonVal.truthy (d.getField "settings") = false) →
      handleImportFile size (some d) = .error .invalidFormat) ∧
    (∀ (size : ℕ) (d : JsonVal), size ≤ 5 * 1024 * 1024 →
      JsonVal.isArr (d.getField "friends") = true →
      JsonVal.isArr (d.getField "meetings") = true →
      JsonVal.truthy (d.getField "settings") = true →
      ((JsonVal.arrElems (d.getField "friends")).all validFriendJson = false ∨
       (JsonVal.arrElems (d.getField "meetings")).all validMeetingJson = false) →
      handleImportFile size (some d) = .error .corruptedData) ∧
    (∀ (s : AppState) (size : ℕ) (parsed : Option JsonVal),
      (importFileStep s size parsed).1 = s) := by
  refine ⟨?_, ?_, ?_, ?_, ?_, ?_⟩
  · intro size parsed d
    constructor
    · intro h
      by_cases hsize : 5 * 1024 * 1024 < size
      · rw [handleImportFile.eq_def, if_pos hsize] at h
        simp at h
      · have hsize' : size ≤ 5 * 1024 * 1024 := not_lt.mp hsize
        cases parsed with
        | none =>
          rw [handleImportFile.eq_def, if_neg hsize] at h
          simp at h
        | some data =>
          rw [handleImportFile_some size data hsize'] at h
          by_cases h1 : (!JsonVal.isArr (data.getField "friends")
              || !JsonVal.isArr (data.getField "meetings")
              || !JsonVal.truthy (data.getField "settings")) = true
          · rw [if_pos h1] at h
            simp at h
          · rw [if_neg h1] at h
            by_cases h2 : (!(JsonVal.arrElems (data.getField "friends")).all validFriendJson
                || !(JsonVal.arrElems (data.getField "meetings")).all validMeetingJson)
                  = true
            · rw [if_pos h2] at h
              simp at h
            · rw [if_neg h2] at h
              have hd : data = d := by
                simpa using h
              subst hd
              simp only [Bool.not_eq_true, Bool.or_eq_false_iff, Bool.not_eq_false']
                at h1 h2
              exact ⟨hsize', rfl, h1.1.1, h1.1.2, h1.2, h2.1, h2.2⟩
    · rintro ⟨hsize, hparsed, hb1, hb2, hb3, hall1, hall2⟩
      subst hparsed
      rw [handleImportFile_some size d hsize, if_neg (by simp [hb1, hb2, hb3]),
        if_neg (by simp [hall1, hall2])]
  · intro size parsed hsize
    rw [handleImportFile.eq_def, if_pos hsize]
  · intro size hsize
    rw [handleImportFile.eq_def, if_neg (not_lt.mpr hsize)]
  · intro size d hsize hbad
    rw [handleImportFile_some size d hsize, if_pos ?_]
    rcases hbad with hb | hb | hb <;> simp [hb]
  · intro size d hsize hb1 hb2 hb3 hbad
    rw [handleImportFile_some size d hsize, if_neg (by simp [hb1, hb2, hb3]), if_pos ?_]
    rcases hbad with hb | hb <;> simp [hb]
  · intro s size parsed
    rw [importFileStep]
    cases h : handleImportFile size parsed <;> rfl

/-- C6 amended witness: the empty snapshot survives both an accepted
validation (of `boCandidateJson`) and a rejected one (`none`, i.e.
unparseable bytes) untouched, and a shape violation is rejected with
the format-specific reason under the size bound. -/
theorem import_validation_characterization_witness :
    handleImportFile 100 (some boCandidateJson) = .ok boCandidateJson ∧
    handleImportFile 100 none = .error ImportError.couldNotRead ∧
    handleImportFile (6 * 1024 * 1024) none = .error ImportError.tooLarge ∧
    handleImportFile 100 (some JsonVal.jnull) = .error ImportError.invalidFormat ∧
    handleImportFile 100 (some emptyNameCandidateJson) = .ok emptyNameCandidateJson ∧
    (importFileStep { friends := [], meetings := [], settings := witnessSettings }
        100 none).1
      = { friends := [], meetings := [], settings := witnessSettings } := by
  refine ⟨?_, ?_, ?_, ?_, ?_, ?_⟩
  · exact (import_validation_characterization.1 100 (some boCandidateJson)
      boCandidateJson).mpr ⟨by norm_num, rfl, rfl, rfl, rfl, rfl, rfl⟩
  · exact import_validation_characterization.2.2.1 100 (by norm_num)
  · exact import_validation_characterization.2.1 (6 * 1024 * 1024) none (by norm_num)
  · exact import_validation_characterization.2.2.2.1 100 JsonVal.jnull (by norm_num)
      (Or.inl rfl)
  · exact (import_validation_characterization.1 100 (some emptyNameCandidateJson)
      emptyNameCandidateJson).mpr ⟨by norm_num, rfl, rfl, rfl, rfl, rfl, rfl⟩
  · exact import_validation_characterization.2.2.2.2.2
      { friends := [], meetings := [], settings := witnessSettings } 100 none

end InTime
